import Mathlib

/-
  Verification development for the usa_stock_finder repository.

  Shallow embedding of the signal & position decision engine:
  * trailing_stop.py        (update_highest_close)
  * stop_loss_cooldown.py   (calculate_cooldown_days, is_in_cooldown)
  * sell_signals.py         (evaluate_sell_decisions, per-holding body)
  * stock_analysis.py       (is_above_52_week_low, is_200_ma_increasing_recently,
                             calculate_vpci_components, calculate_avsl_series,
                             get_latest_avsl, check_avsl_sell_signal)
  * main.py                 (calculate_investment_per_stock, calculate_share_quantities)

  Modelling conventions:
  * Python floats are modelled as exact rationals (ℚ).  Dates are modelled as
    integers (days); `(d2 - d1).days` becomes integer subtraction.
  * Python dicts keyed by symbol are modelled as association lists
    `List (String × α)`; `dict[k] = v` is replace-first-or-append (`setAssoc`),
    which preserves Python's "overwrite the existing key" semantics, and
    `dict.get(k, d)` is `(lookup k).getD d`.
  * Python `int(x)` (truncation toward zero) is `truncQ`; `round(x, 2)` and
    pandas `Series.round()` use round-half-to-even (`roundHalfEvenZ`).
-/

namespace StockFinder

/-- Python `int(x)` applied to a float: truncation toward zero. -/
def truncQ (q : ℚ) : ℤ := if 0 ≤ q then ⌊q⌋ else -⌊-q⌋

/-- Python/numpy rounding of a number to the nearest integer, ties to even
(used by `round(x, n)` and `pandas.Series.round()`). -/
def roundHalfEvenZ (q : ℚ) : ℤ :=
  let f : ℤ := ⌊q⌋
  let r : ℚ := q - f
  if r < 1/2 then f
  else if 1/2 < r then f + 1
  else if Even f then f else f + 1

/-- Python `round(x, 2)` on an exact rational. -/
def round2 (q : ℚ) : ℚ := (roundHalfEvenZ (q * 100) : ℚ) / 100

/-- Python dict assignment `d[k] = v` on an association list: replace the first
binding of `k` if present, otherwise append at the end. -/
def setAssoc {α : Type} (l : List (String × α)) (k : String) (v : α) :
    List (String × α) :=
  match l with
  | [] => [(k, v)]
  | (k', v') :: t => if k' = k then (k, v) :: t else (k', v') :: setAssoc t k v

/-! ## trailing_stop.py -/

/-- Persisted per-symbol trailing state: `{"highest_close": float,
"last_update": "<ISO date>"}`. -/
structure TrailEntry where
  highestClose : ℚ
  lastUpdate : ℤ
  deriving Repr, DecidableEq

/-- The persisted trailing-state map (trailing_state.json). -/
abbrev TrailState := List (String × TrailEntry)

/-- Reading `state.get(symbol, {}).get("highest_close", 0.0)`. -/
def storedHigh (state : TrailState) (symbol : String) : ℚ :=
  ((state.lookup symbol).map TrailEntry.highestClose).getD 0

/-- Embedding of `trailing_stop.update_highest_close`.  Returns the value the
Python function returns together with the (possibly) mutated state.  For
`close_price <= 0` the function returns the previously stored high and does not
touch the state; otherwise it stores `max(prev, close)` when a previous value
`> 0` exists, else `close`, always stamping `today`. -/
def update_highest_close (state : TrailState) (symbol : String)
    (closePrice : ℚ) (today : ℤ) : ℚ × TrailState :=
  if closePrice ≤ 0 then
    (storedHigh state symbol, state)
  else
    let prevHigh := storedHigh state symbol
    let newHigh := if 0 < prevHigh then max prevHigh closePrice else closePrice
    (newHigh, setAssoc state symbol ⟨newHigh, today⟩)

/-- Folding a sequence of `update_highest_close` calls for one symbol over the
state, feeding each `(closePrice, today)` pair in order. -/
def updateHighestCloseRuns (state : TrailState) (symbol : String)
    (calls : List (ℚ × ℤ)) : TrailState :=
  calls.foldl (fun s c => (update_highest_close s symbol c.1 c.2).2) state

/-! ## stop_loss_cooldown.py -/

/-- Modelled from the spec: the constants `StrategyConfig.STOP_LOSS_COOLDOWN_BASE_DAYS`,
`STOP_LOSS_COOLDOWN_EXTRA_DAYS_PER_10PCT` and `STOP_LOSS_COOLDOWN_MAX_DAYS` are
referenced by stop_loss_cooldown.py but are not defined in the copy of
config.py in the repository; the cooldown functions are therefore parameterized
by this record, with defaults BASE=5, EXTRA=5 per 10%-block, MAX=60 taken from
the spec (§4.4). -/
structure CooldownConfig where
  baseDays : ℤ
  extraDaysPer10Pct : ℤ
  maxDays : ℤ
  deriving Repr, DecidableEq

/-- Modelled from the spec: default cooldown configuration (BASE=5, EXTRA=5,
MAX=60). -/
def defaultCooldownConfig : CooldownConfig := ⟨5, 5, 60⟩

/-- Embedding of `stop_loss_cooldown.calculate_cooldown_days`:
`loss_pct >= 0` yields the base days; otherwise
`base + int(abs(loss_pct) / 0.10) * extra`, capped at `max` when `max > 0`. -/
def calculate_cooldown_days (cfg : CooldownConfig) (lossPct : ℚ) : ℤ :=
  if 0 ≤ lossPct then cfg.baseDays
  else
    let absLoss := |lossPct|
    let extraBlocks := truncQ (absLoss / (1/10))
    let days := cfg.baseDays + extraBlocks * cfg.extraDaysPer10Pct
    if 0 < cfg.maxDays then min days cfg.maxDays else days

/-- A persisted cooldown entry: `{"last_stop_loss_date": ..., "loss_pct": ...}`. -/
structure CooldownEntry where
  lastStopLossDate : ℤ
  lossPct : ℚ
  deriving Repr, DecidableEq

/-- The persisted stop-loss log (stop_loss_log.json). -/
abbrev CooldownLog := List (String × CooldownEntry)

/-- Embedding of `stop_loss_cooldown.record_stop_loss_event`: a `None` or
non-negative loss is recorded as `0.0`; the entry always overwrites any prior
entry for the symbol. -/
def record_stop_loss_event (log : CooldownLog) (symbol : String)
    (lossPct : Option ℚ) (today : ℤ) : CooldownLog :=
  let recorded : ℚ :=
    match lossPct with
    | none => 0
    | some l => if 0 ≤ l then 0 else l
  setAssoc log symbol ⟨today, recorded⟩

/-- Embedding of `stop_loss_cooldown.is_in_cooldown`: no entry means not in
cooldown; otherwise in cooldown exactly while
`(today - last_date).days < calculate_cooldown_days(loss_pct)`. -/
def is_in_cooldown (cfg : CooldownConfig) (log : CooldownLog) (symbol : String)
    (today : ℤ) : Bool :=
  match log.lookup symbol with
  | none => false
  | some e => decide (today - e.lastStopLossDate < calculate_cooldown_days cfg e.lossPct)

/-! ## sell_signals.py -/

/-- Enumeration `SellReason` from sell_signals.py (`NONE` is rendered `hold`). -/
inductive SellReason where
  | hold
  | stopLoss
  | trailing
  | avsl
  | trend
  deriving Repr, DecidableEq

/-- The `SellDecision` dataclass. -/
structure SellDecision where
  symbol : String
  reason : SellReason
  quantity : ℚ
  deriving Repr, DecidableEq

/-- Modelled from the spec: the constants `StrategyConfig.STOP_LOSS_PCT`,
`TRAILING_ENABLED`, `TRAILING_MIN_PROFIT_PCT` and `TRAILING_ATR_MULTIPLIER`
are referenced by sell_signals.py but are not defined in the copy of config.py
in the repository; the engine is parameterized by this record.  The spec gives
`STOP_LOSS_PCT` a default of 10% (§4.5). -/
structure SellConfig where
  stopLossPct : ℚ
  trailingEnabled : Bool
  trailingMinProfitPct : ℚ
  trailingAtrMultiplier : ℚ
  deriving Repr, DecidableEq

/-- One holding as delivered by the broker API (`symbol` is handled by the
caller; `quantity`, `avg_price`, `current_price` are `.get(..., 0.0)` reads). -/
structure Holding where
  symbol : String
  quantity : ℚ
  avgPrice : ℚ
  currentPrice : ℚ
  deriving Repr, DecidableEq

/-- Price resolution in `evaluate_sell_decisions`:
`current_price = finder_price if finder_price > 0 else holding_price`. -/
def resolveCurrentPrice (finderPrice holdingPrice : ℚ) : ℚ :=
  if 0 < finderPrice then finderPrice else holdingPrice

/-- Embedding of the per-holding body of `sell_signals.evaluate_sell_decisions`
(lines 95-313).  `finderPrice` is `finder.current_price.get(symbol, 0.0)` and
`atrValue` is `finder.get_atr(symbol, TRAILING_ATR_PERIOD)` for this holding;
`avslSignals` is the `{symbol: bool}` dict (read with default `False`).  The
result is the `SellDecision` stored into `decisions[symbol]` together with the
trailing state and stop-loss log after this iteration (the trailing state is
mutated by `update_highest_close` even when the trailing tier does not sell;
`record_stop_loss_event` fires on every selling tier). -/
def evaluate_holding (cfg : SellConfig) (h : Holding)
    (finderPrice atrValue : ℚ)
    (selectedBuy selectedNotSell : List String)
    (avslSignals : List (String × Bool))
    (tstate : TrailState) (clog : CooldownLog) (today : ℤ) :
    SellDecision × TrailState × CooldownLog :=
  if h.quantity ≤ 0 then
    (⟨h.symbol, SellReason.hold, 0⟩, tstate, clog)
  else
    let currentPrice := resolveCurrentPrice finderPrice h.currentPrice
    let lossPct := (currentPrice - h.avgPrice) / h.avgPrice
    -- Tier 1: stop loss (absolute priority)
    if 0 < h.avgPrice ∧ 0 < currentPrice ∧ lossPct ≤ -cfg.stopLossPct then
      (⟨h.symbol, SellReason.stopLoss, h.quantity⟩, tstate,
        record_stop_loss_event clog h.symbol (some lossPct) today)
    else
      -- Tier 2: ATR-based trailing stop; the highest close is updated (state
      -- write) whenever the profit gate passes, even if no sell fires.  The
      -- source nests the ATR/stop test inside the profit-gate branch; here the
      -- gate is conjoined into the sell test, which is equivalent.
      let profitGate := cfg.trailingEnabled ∧ 0 < h.avgPrice ∧ 0 < currentPrice ∧
        cfg.trailingMinProfitPct ≤ lossPct
      let highestClose := (update_highest_close tstate h.symbol currentPrice today).1
      let tstate2 :=
        if profitGate then (update_highest_close tstate h.symbol currentPrice today).2
        else tstate
      if profitGate ∧ 0 < atrValue ∧ 0 < highestClose ∧
          currentPrice ≤ highestClose - atrValue * cfg.trailingAtrMultiplier then
        (⟨h.symbol, SellReason.trailing, h.quantity⟩, tstate2,
          record_stop_loss_event clog h.symbol
            (if 0 < h.avgPrice then some lossPct else none) today)
      else
        -- Tier 3: AVSL (volume support level broken)
        if (avslSignals.lookup h.symbol).getD false then
          (⟨h.symbol, SellReason.avsl, h.quantity⟩, tstate2,
            record_stop_loss_event clog h.symbol
              (if 0 < h.avgPrice ∧ 0 < currentPrice then some lossPct else none) today)
        -- Tier 4: trend/strategy condition failure
        else if h.symbol ∉ selectedBuy ∧ h.symbol ∉ selectedNotSell then
          (⟨h.symbol, SellReason.trend, h.quantity⟩, tstate2,
            record_stop_loss_event clog h.symbol
              (if 0 < h.avgPrice ∧ 0 < currentPrice then some lossPct else none) today)
        else
          (⟨h.symbol, SellReason.hold, 0⟩, tstate2, clog)

/-! ## stock_analysis.py: 52-week-low guard and MA200 trend check -/

/-- Per-symbol body of `UsaStockFinder.is_above_52_week_low` (lines 250-292):
if the 52-week low is below `MIN_PRICE_THRESHOLD` the condition is `false`
(guarding the division); otherwise the percentage increase over the low is
compared against `LOW_INCREASE_PERCENT * (1 - margin)`.  `current` and
`lastLow` are the `.get(symbol, 0.0)` reads of `self.current_price` and
`self.last_low`. -/
def is_above_52_week_low_body (current lastLow margin thresholdPercent
    minPriceThreshold : ℚ) : Bool :=
  if lastLow < minPriceThreshold then
    false
  else
    let increasePercent := ((current - lastLow) / lastLow) * 100
    decide (thresholdPercent * (1 - margin) ≤ increasePercent)

/-- Embedding of `is_above_52_week_low` over the symbol list; the result dict
is an association list in symbol order. -/
def is_above_52_week_low (symbols : List String)
    (currentPrice lastLow : List (String × ℚ))
    (margin thresholdPercent minPriceThreshold : ℚ) : List (String × Bool) :=
  symbols.map fun s =>
    (s, is_above_52_week_low_body ((currentPrice.lookup s).getD 0)
      ((lastLow.lookup s).getD 0) margin thresholdPercent minPriceThreshold)

/-- Pandas `series.rolling(window=w).mean()` over a series without missing
values: entry `i` is the mean of the `w` values ending at `i`, or `NaN`
(modelled as `none`) while the window is not yet full.  Defined for `w ≥ 1`
(pandas rejects `w = 0`; we return an all-`none` series there). -/
def rollingMeanQ (w : ℕ) (xs : List ℚ) : List (Option ℚ) :=
  (List.range xs.length).map fun i =>
    if w = 0 ∨ i + 1 < w then none
    else some ((((xs.take (i + 1)).drop (i + 1 - w)).sum) / w)

/-- The mean of the `w`-value window of `xs` that ends at index `endIdx`. -/
def windowMean (xs : List ℚ) (endIdx w : ℕ) : ℚ :=
  (((xs.take (endIdx + 1)).drop (endIdx + 1 - w)).sum) / w

/-- Per-symbol body of `UsaStockFinder.is_200_ma_increasing_recently`
(lines 330-384) for a symbol with close series `closes` (no missing values):
requires at least `requiredDays` data points, reads the rolling MA-200 series
`ma_200.iloc[-1]` (today) and `ma_200.iloc[-checkDays]` (the value
`checkDays` positions back, a `NaN` (`none`) when that window is incomplete —
a comparison against `NaN` is `False` in Python), and fails closed to `false`
on insufficient data. -/
def is_200_ma_increasing_recently (closes : List ℚ) (margin : ℚ)
    (requiredDays checkDays : ℕ) : Bool :=
  let n := closes.length
  if n ≠ 0 ∧ requiredDays ≤ n then
    let ma200 := rollingMeanQ requiredDays closes
    if checkDays ≤ ma200.length then
      let currentMa := ma200.getD (n - 1) none
      let pastMa := ma200.getD (if checkDays = 0 then 0 else n - checkDays) none
      match currentMa, pastMa with
      | some c, some p => decide (p * (1 - margin) ≤ c)
      | _, _ => false
    else false
  else false

/-! ## main.py: position sizer -/

/-- Broker balance as consumed by `calculate_investment_per_stock`
(`available_cash`, `buyable_cash`, `total_balance`). -/
structure AccountBalance where
  availableCash : ℚ
  buyableCash : ℚ
  totalBalance : ℚ
  deriving Repr, DecidableEq

/-- Investment-related configuration (config.py `InvestmentConfig`): reserve
ratio, min/max investment, distribution strategy and the proportional
percentage. -/
structure InvestmentCfg where
  reserveRatio : ℚ
  minInvestment : ℚ
  maxInvestment : ℚ
  distributionStrategy : String
  proportionalPercentage : ℚ
  deriving Repr, DecidableEq

/-- Resolution of the `max_investment` argument (main.py lines 355-356 plus
the truthiness test at line 405): an argument that is `None` or `0` falls back
to the configured maximum when that is `> 0`, else no cap; a non-zero argument
is used as given. -/
def resolveMaxInvestment (arg : Option ℚ) (cfgMax : ℚ) : Option ℚ :=
  match arg with
  | none => if 0 < cfgMax then some cfgMax else none
  | some a => if a = 0 then (if 0 < cfgMax then some cfgMax else none) else some a

/-- Embedding of `main.calculate_investment_per_stock` (lines 314-439).
`balance` is the result of `fetch_account_balance()` (`none` models a fetch
failure).  Returns the `{symbol: rounded amount}` plan, or `none` when there
are no buy items, no balance, no buyable cash, or no stock clears the
minimum. -/
def calculate_investment_per_stock (cfg : InvestmentCfg)
    (buyItems : List String) (balance : Option AccountBalance)
    (reserveArg minArg maxArg : Option ℚ) : Option (List (String × ℚ)) :=
  if buyItems = [] then none
  else
    let reserveRatio := reserveArg.getD cfg.reserveRatio
    let minInvestment := minArg.getD cfg.minInvestment
    let maxInvestment := resolveMaxInvestment maxArg cfg.maxInvestment
    match balance with
    | none => none
    | some b =>
      if b.buyableCash ≤ 0 then none
      else
        let totalInvestment := b.buyableCash * (1 - reserveRatio)
        let numStocks := buyItems.length
        let investmentPerStock :=
          if cfg.distributionStrategy = "proportional" ∧ 0 < cfg.proportionalPercentage then
            b.totalBalance * cfg.proportionalPercentage
          else
            totalInvestment / numStocks
        let affordable := buyItems.filterMap fun s =>
          let stockInvestment :=
            match maxInvestment with
            | some m => if m ≠ 0 ∧ m < investmentPerStock then m else investmentPerStock
            | none => investmentPerStock
          if minInvestment ≤ stockInvestment then some (s, stockInvestment) else none
        if affordable = [] then none
        else some (affordable.map fun p => (p.1, round2 p.2))

/-- The per-stock trading record built by `calculate_share_quantities`. -/
structure ShareInfo where
  investmentAmount : ℚ
  currentPrice : ℚ
  sharesToBuy : ℤ
  currentQuantity : ℤ
  additionalBuy : ℤ
  totalAfterBuy : ℤ
  actualInvestment : ℚ
  deriving Repr, DecidableEq

/-- The `holdings_map` built at main.py lines 487-493: `{symbol: quantity}`
with empty symbols skipped, later entries overwriting earlier ones. -/
def holdingsMapOf (holdings : List (String × ℚ)) : List (String × ℚ) :=
  holdings.foldl (fun m h => if h.1 = "" then m else setAssoc m h.1 h.2) []

/-- Loop body of `calculate_share_quantities` for one `investment_map` item:
skips the symbol when the price is not positive or the target share count
`int(investment / price)` is not positive; otherwise computes the shares to
buy (`target` for a new position, `max(target - int(held), 0)` otherwise). -/
def shareInfoFor (investmentAmount currentPrice heldQuantity : ℚ) :
    Option ShareInfo :=
  if currentPrice ≤ 0 then none
  else
    let targetTotalQuantity := truncQ (investmentAmount / currentPrice)
    if targetTotalQuantity ≤ 0 then none
    else
      let sharesToBuy :=
        if heldQuantity = 0 then targetTotalQuantity
        else max (targetTotalQuantity - truncQ heldQuantity) 0
      let totalAfterBuy := truncQ heldQuantity + sharesToBuy
      let actualInvestment := (sharesToBuy : ℚ) * currentPrice
      some ⟨round2 investmentAmount, round2 currentPrice, sharesToBuy,
        truncQ heldQuantity, sharesToBuy, totalAfterBuy, round2 actualInvestment⟩

/-- Embedding of `main.calculate_share_quantities` (lines 442-571).  `prices`
is `finder.current_price` (read with default `0.0`), `holdings` the account
holdings as `(symbol, quantity)` pairs.  Returns `none` for an empty
investment map or when no symbol yields a valid quantity. -/
def calculate_share_quantities (investmentMap : List (String × ℚ))
    (prices : List (String × ℚ)) (holdings : List (String × ℚ)) :
    Option (List (String × ShareInfo)) :=
  if investmentMap = [] then none
  else
    let holdingsMap := holdingsMapOf holdings
    let result := investmentMap.filterMap fun p =>
      (shareInfoFor p.2 ((prices.lookup p.1).getD 0)
        ((holdingsMap.lookup p.1).getD 0)).map fun info => (p.1, info)
    if result = [] then none else some result

/-! ## Helper lemmas -/

lemma truncQ_of_nonneg {q : ℚ} (h : 0 ≤ q) : truncQ q = ⌊q⌋ := by
  simp [truncQ, h]

lemma truncQ_intCast (n : ℤ) : truncQ (n : ℚ) = n := by
  rcases le_or_lt 0 (n : ℚ) with h | h
  · simp [truncQ, h]
  · have hn : ¬ (0 : ℚ) ≤ (n : ℚ) := not_le.mpr h
    rw [truncQ, if_neg hn, ← Int.cast_neg, Int.floor_intCast, neg_neg]

lemma lookup_setAssoc_self {α : Type} (l : List (String × α)) (k : String) (v : α) :
    (setAssoc l k v).lookup k = some v := by
  induction l with
  | nil => simp [setAssoc]
  | cons p t ih =>
    by_cases hk : p.1 = k
    · simp [setAssoc, hk]
    · have hbeq : (k == p.1) = false := beq_eq_false_iff_ne.mpr (Ne.symm hk)
      simp [setAssoc, hk, List.lookup, hbeq, ih]

lemma storedHigh_setAssoc (s : TrailState) (symbol : String) (e : TrailEntry) :
    storedHigh (setAssoc s symbol e) symbol = e.highestClose := by
  simp [storedHigh, lookup_setAssoc_self]

lemma storedHigh_le_update (s : TrailState) (symbol : String) (c : ℚ) (d : ℤ)
    (hc : 0 < c) :
    storedHigh s symbol ≤ storedHigh (update_highest_close s symbol c d).2 symbol := by
  unfold update_highest_close
  rw [if_neg (not_le.mpr hc)]
  simp only [storedHigh_setAssoc]
  by_cases hp : 0 < storedHigh s symbol
  · simp [hp, le_max_left]
  · simp [hp]
    exact le_of_lt (lt_of_le_of_lt (not_lt.mp hp) hc)

/-! ## Claim theorems: cooldown ledger -/

lemma calculate_cooldown_days_neg (cfg : CooldownConfig) {l : ℚ} (h : l < 0) :
    calculate_cooldown_days cfg l =
      (if 0 < cfg.maxDays then
        min (cfg.baseDays + ⌊|l| / (1/10)⌋ * cfg.extraDaysPer10Pct) cfg.maxDays
       else cfg.baseDays + ⌊|l| / (1/10)⌋ * cfg.extraDaysPer10Pct) := by
  have hnot : ¬ (0 : ℚ) ≤ l := not_le.mpr h
  have hdiv : |l| / (1/10) = |l| * 10 := by ring
  have ht : truncQ (|l| * 10) = ⌊|l| * 10⌋ :=
    truncQ_of_nonneg (by positivity)
  simp [calculate_cooldown_days, hnot, hdiv, ht]

lemma cooldown_days_default_28 :
    calculate_cooldown_days defaultCooldownConfig (-(28/100)) = 15 := by
  have h1 : |(-(28/100) : ℚ)| / (1/10) = 14/5 := by
    rw [show |(-(28/100) : ℚ)| = 28/100 by norm_num]
    norm_num
  have h2 : ⌊(14/5 : ℚ)⌋ = 2 := by norm_num
  rw [calculate_cooldown_days_neg defaultCooldownConfig (by norm_num), h1, h2]
  norm_num [defaultCooldownConfig]

/-- C2: `calculate_cooldown_days` returns the base days for every
`lossPct ≥ 0`; for `lossPct < 0` it returns
`BASE + floor(|lossPct| / 0.10) * EXTRA`, capped at `MAX` whenever `MAX > 0`;
with the spec defaults (BASE=5, EXTRA=5, MAX=60) a −28% loss yields 15 days. -/
theorem cooldown_days_formula (cfg : CooldownConfig) (lossPct : ℚ) :
    (0 ≤ lossPct → calculate_cooldown_days cfg lossPct = cfg.baseDays) ∧
    (lossPct < 0 →
      calculate_cooldown_days cfg lossPct =
        (if 0 < cfg.maxDays then
          min (cfg.baseDays + ⌊|lossPct| / (1/10)⌋ * cfg.extraDaysPer10Pct) cfg.maxDays
         else cfg.baseDays + ⌊|lossPct| / (1/10)⌋ * cfg.extraDaysPer10Pct)) ∧
    calculate_cooldown_days defaultCooldownConfig (-(28/100)) = 15 := by
  exact ⟨fun h => by simp [calculate_cooldown_days, h],
    fun h => calculate_cooldown_days_neg cfg h, cooldown_days_default_28⟩

/-- Witness for `cooldown_days_formula` at concrete inputs (both branches). -/
theorem cooldown_days_formula_witness :
    calculate_cooldown_days defaultCooldownConfig (1/2) = 5 ∧
    calculate_cooldown_days defaultCooldownConfig (-(1/2)) = 30 := by
  constructor
  · exact (cooldown_days_formula defaultCooldownConfig (1/2)).1 (by norm_num)
  · have h := (cooldown_days_formula defaultCooldownConfig (-(1/2))).2.1 (by norm_num)
    have h1 : |(-(1/2) : ℚ)| / (1/10) = 5 := by
      rw [show |(-(1/2) : ℚ)| = 1/2 by norm_num]
      norm_num
    have h2 : ⌊(5 : ℚ)⌋ = 5 := by norm_num
    rw [h, h1]
    norm_num [defaultCooldownConfig, h2]

/-- C3: with a non-negative extra-days-per-block configuration the cooldown
length is monotone in the loss magnitude; for a recorded entry,
`is_in_cooldown` is `false` exactly when the elapsed days reach the computed
cooldown length (so the `true → false` transition is exactly at
`elapsed = cooldownDays`); a symbol with no entry is never in cooldown; and
with the spec defaults a −28% loss recorded on day `d` is in cooldown at
`d+14` and out at `d+16`. -/
theorem cooldown_monotone_transition (cfg : CooldownConfig) (x y : ℚ)
    (log : CooldownLog) (symbol : String) (today : ℤ) (e : CooldownEntry) :
    (0 ≤ cfg.extraDaysPer10Pct → x < 0 → y < 0 → |x| ≤ |y| →
      calculate_cooldown_days cfg x ≤ calculate_cooldown_days cfg y) ∧
    (log.lookup symbol = some e →
      (is_in_cooldown cfg log symbol today = false ↔
        calculate_cooldown_days cfg e.lossPct ≤ today - e.lastStopLossDate)) ∧
    (log.lookup symbol = none → is_in_cooldown cfg log symbol today = false) ∧
    (∀ d : ℤ,
      is_in_cooldown defaultCooldownConfig [(symbol, ⟨d, -(28/100)⟩)] symbol (d + 14) = true ∧
      is_in_cooldown defaultCooldownConfig [(symbol, ⟨d, -(28/100)⟩)] symbol (d + 16) = false) := by
  refine ⟨fun he hx hy hxy => ?_, fun hlk => ?_, fun hlk => ?_, fun d => ?_⟩
  · have hx' : ¬ (0 : ℚ) ≤ x := not_le.mpr hx
    have hy' : ¬ (0 : ℚ) ≤ y := not_le.mpr hy
    have hxq : (0 : ℚ) ≤ |x| / (1/10) := div_nonneg (abs_nonneg _) (by norm_num)
    have hyq : (0 : ℚ) ≤ |y| / (1/10) := div_nonneg (abs_nonneg _) (by norm_num)
    have hfl : ⌊|x| * 10⌋ ≤ ⌊|y| * 10⌋ :=
      Int.floor_le_floor (by nlinarith [abs_nonneg x, abs_nonneg y])
    have hmul : ⌊|x| * 10⌋ * cfg.extraDaysPer10Pct ≤
        ⌊|y| * 10⌋ * cfg.extraDaysPer10Pct :=
      mul_le_mul_of_nonneg_right hfl he
    have hdx : |x| / (1/10) = |x| * 10 := by ring
    have hdy : |y| / (1/10) = |y| * 10 := by ring
    have htx : truncQ (|x| * 10) = ⌊|x| * 10⌋ := truncQ_of_nonneg (by positivity)
    have hty : truncQ (|y| * 10) = ⌊|y| * 10⌋ := truncQ_of_nonneg (by positivity)
    simp only [calculate_cooldown_days, hx', hy', if_false, hdx, hdy, htx, hty]
    split
    · exact min_le_min (by omega) le_rfl
    · omega
  · simp only [is_in_cooldown, hlk]
    rw [decide_eq_false_iff_not, not_lt]
  · simp [is_in_cooldown, hlk]
  · have hlk : ([(symbol, (⟨d, -(28/100)⟩ : CooldownEntry))]).lookup symbol =
        some ⟨d, -(28/100)⟩ := by simp [List.lookup]
    have hdays : calculate_cooldown_days defaultCooldownConfig (-(28/100)) = 15 :=
      cooldown_days_default_28
    constructor
    · simp only [is_in_cooldown, hlk, hdays]
      rw [decide_eq_true_eq]; omega
    · simp only [is_in_cooldown, hlk, hdays]
      rw [decide_eq_false_iff_not]; omega

/-- Witness for `cooldown_monotone_transition` at concrete inputs. -/
theorem cooldown_monotone_transition_witness :
    calculate_cooldown_days defaultCooldownConfig (-(1/10)) ≤
      calculate_cooldown_days defaultCooldownConfig (-(28/100)) ∧
    is_in_cooldown defaultCooldownConfig [("EGAN", ⟨0, -(28/100)⟩)] "EGAN" 14 = true := by
  constructor
  · exact (cooldown_monotone_transition defaultCooldownConfig (-(1/10)) (-(28/100))
      [] "EGAN" 0 ⟨0, 0⟩).1 (by decide) (by norm_num) (by norm_num)
      (by rw [show |(-(1/10) : ℚ)| = 1/10 by norm_num,
           show |(-(28/100) : ℚ)| = 28/100 by norm_num]
          norm_num)
  · exact ((cooldown_monotone_transition defaultCooldownConfig 0 0
      [] "EGAN" 0 ⟨0, 0⟩).2.2.2 0).1

/-! ## Claim theorems: trailing stop tracker -/

/-- C4: the stored highest close never decreases across any sequence of
`update_highest_close` calls with positive prices; a call with a positive
price stores and returns `max(previousHigh, closePrice)` when a stored value
`> 0` exists and `closePrice` otherwise; a call with `closePrice ≤ 0` returns
the previous stored high and leaves the state unchanged. -/
theorem update_highest_close_monotone (state : TrailState) (symbol : String)
    (closePrice : ℚ) (today : ℤ) (calls : List (ℚ × ℤ)) :
    (closePrice ≤ 0 →
      update_highest_close state symbol closePrice today =
        (storedHigh state symbol, state)) ∧
    (0 < closePrice → 0 < storedHigh state symbol →
      (update_highest_close state symbol closePrice today).1 =
          max (storedHigh state symbol) closePrice ∧
        storedHigh (update_highest_close state symbol closePrice today).2 symbol =
          max (storedHigh state symbol) closePrice) ∧
    (0 < closePrice → storedHigh state symbol ≤ 0 →
      (update_highest_close state symbol closePrice today).1 = closePrice ∧
        storedHigh (update_highest_close state symbol closePrice today).2 symbol =
          closePrice) ∧
    ((∀ c ∈ calls, 0 < c.1) →
      storedHigh state symbol ≤
        storedHigh (updateHighestCloseRuns state symbol calls) symbol) := by
  refine ⟨fun h => ?_, fun hc hp => ?_, fun hc hp => ?_, fun hpos => ?_⟩
  · simp [update_highest_close, h]
  · have h' : ¬ closePrice ≤ 0 := not_le.mpr hc
    simp [update_highest_close, h', hp, storedHigh_setAssoc]
  · have h' : ¬ closePrice ≤ 0 := not_le.mpr hc
    have hp' : ¬ 0 < storedHigh state symbol := not_lt.mpr hp
    simp [update_highest_close, h', hp', storedHigh_setAssoc]
  · induction calls generalizing state with
    | nil => exact le_refl _
    | cons c t ih =>
      have hstep := storedHigh_le_update state symbol c.1 c.2 (hpos c (List.mem_cons_self c t))
      have htail := ih (update_highest_close state symbol c.1 c.2).2
        (fun x hx => hpos x (List.mem_cons_of_mem c hx))
      exact le_trans hstep htail

/-- Witness for `update_highest_close_monotone`: a concrete positive-price run
and a concrete positive-price single call. -/
theorem update_highest_close_monotone_witness :
    storedHigh ([] : TrailState) "A" ≤
      storedHigh (updateHighestCloseRuns [] "A" [(2, 0), (3, 1)]) "A" ∧
    (update_highest_close [("A", ⟨5, 0⟩)] "A" 7 1).1 = max (storedHigh [("A", ⟨5, 0⟩)] "A") 7 := by
  constructor
  · exact (update_highest_close_monotone [] "A" 1 0 [(2, 0), (3, 1)]).2.2.2
      (by intro c hc
          rcases List.mem_cons.mp hc with h | h
          · rw [h]; norm_num
          · rcases List.mem_cons.mp h with h2 | h2
            · rw [h2]; norm_num
            · cases h2)
  · exact ((update_highest_close_monotone [("A", ⟨5, 0⟩)] "A" 7 1 []).2.1
      (by norm_num) (by norm_num [storedHigh, List.lookup])).1

/-- C10: `update_highest_close` with a non-positive close price leaves the
state dictionary completely unmodified (no entry added, nothing overwritten)
and returns the previously stored high. -/
theorem update_highest_close_frame (state : TrailState) (symbol : String)
    (closePrice : ℚ) (today : ℤ) (h : closePrice ≤ 0) :
    (update_highest_close state symbol closePrice today).2 = state ∧
    (update_highest_close state symbol closePrice today).1 = storedHigh state symbol := by
  unfold update_highest_close
  rw [if_pos h]
  exact ⟨rfl, rfl⟩

/-- Witness for `update_highest_close_frame` at a concrete state. -/
theorem update_highest_close_frame_witness :
    (update_highest_close [("A", ⟨7, 3⟩)] "A" 0 5).2 = [("A", ⟨7, 3⟩)] ∧
    (update_highest_close [("A", ⟨7, 3⟩)] "A" 0 5).1 = storedHigh [("A", ⟨7, 3⟩)] "A" :=
  update_highest_close_frame [("A", ⟨7, 3⟩)] "A" 0 5 le_rfl

/-! ## Claim theorems: 52-week-low guard -/

lemma lookup_map_self {β : Type} (l : List String) (f : String → β) (s : String)
    (hs : s ∈ l) :
    (l.map (fun x => (x, f x))).lookup s = some (f s) := by
  induction l with
  | nil => cases hs
  | cons a t ih =>
    by_cases ha : s = a
    · subst ha
      simp [List.lookup]
    · have hbeq : (s == a) = false := beq_eq_false_iff_ne.mpr ha
      have hst : s ∈ t := by
        rcases List.mem_cons.mp hs with h | h
        · exact absurd h ha
        · exact h
      simp [List.lookup, hbeq, ih hst]

/-- C7: for any configuration and any margin, a symbol whose 52-week low is
below `MIN_PRICE_THRESHOLD` gets verdict `false` from `is_above_52_week_low`;
the division by the low is syntactically confined to the other branch, so the
total function never divides by the near-zero low. -/
theorem low_guard_spec (symbols : List String)
    (currentPrice lastLow : List (String × ℚ))
    (margin thresholdPercent minPriceThreshold : ℚ) (s : String)
    (hs : s ∈ symbols)
    (hlow : (lastLow.lookup s).getD 0 < minPriceThreshold) :
    (is_above_52_week_low symbols currentPrice lastLow margin thresholdPercent
      minPriceThreshold).lookup s = some false := by
  rw [is_above_52_week_low, lookup_map_self _ _ _ hs,
    is_above_52_week_low_body, if_pos hlow]

/-- Witness for `low_guard_spec`: a penny stock whose 52-week low is 0. -/
theorem low_guard_spec_witness :
    (is_above_52_week_low ["PENNY"] [("PENNY", 5)] [("PENNY", 0)] (1/2) 30
      (1/100)).lookup "PENNY" = some false :=
  low_guard_spec ["PENNY"] [("PENNY", 5)] [("PENNY", 0)] (1/2) 30 (1/100) "PENNY"
    (by simp) (by norm_num [List.lookup])

/-! ## Claim theorems: MA200 increase check -/

lemma rollingMeanQ_length (w : ℕ) (xs : List ℚ) :
    (rollingMeanQ w xs).length = xs.length := by
  simp [rollingMeanQ]

lemma rollingMeanQ_getD (w : ℕ) (xs : List ℚ) (i : ℕ) (hi : i < xs.length) :
    (rollingMeanQ w xs).getD i none =
      if w = 0 ∨ i + 1 < w then none else some (windowMean xs i w) := by
  rw [rollingMeanQ, List.getD_eq_getElem?_getD, List.getElem?_map,
    List.getElem?_range hi]
  rfl

/-- C9: trend-template condition 4 (`is_200_ma_increasing_recently`) is
`false` whenever the history is too short to compute both the current MA and
the MA `checkDays` positions back, and otherwise holds exactly when today's
rolling mean is at least the rolling mean ending `checkDays` positions back
times `(1 - margin)`.  (`ma_200.iloc[-check_days]` is the rolling-mean entry
at index `n - checkDays`, a `NaN` until that window is complete.) -/
theorem ma200_increase_spec (closes : List ℚ) (margin : ℚ) (w check : ℕ)
    (hcheck : 1 ≤ check) (hcw : check ≤ w) :
    (closes.length + 1 < w + check →
      is_200_ma_increasing_recently closes margin w check = false) ∧
    (w + check ≤ closes.length + 1 →
      (is_200_ma_increasing_recently closes margin w check = true ↔
        windowMean closes (closes.length - check) w * (1 - margin) ≤
          windowMean closes (closes.length - 1) w)) := by
  have hw : 1 ≤ w := le_trans hcheck hcw
  constructor
  · intro hshort
    by_cases hn : closes.length ≠ 0 ∧ w ≤ closes.length
    · -- enough points for the current MA but not for the past one
      have hchlen : check ≤ (rollingMeanQ w closes).length := by
        rw [rollingMeanQ_length]; omega
      have hpastidx : closes.length - check < closes.length := by omega
      have hpast : (rollingMeanQ w closes).getD (closes.length - check) none = none := by
        rw [rollingMeanQ_getD w closes _ hpastidx]
        have : closes.length - check + 1 < w := by omega
        simp [this]
      simp only [is_200_ma_increasing_recently, if_pos hn, if_pos hchlen]
      have hc0 : ¬ check = 0 := by omega
      rw [if_neg hc0, hpast]
      rcases (rollingMeanQ w closes).getD (closes.length - 1) none with _ | v <;> rfl
    · simp only [is_200_ma_increasing_recently]
      rw [if_neg hn]
  · intro hlong
    have hn : closes.length ≠ 0 ∧ w ≤ closes.length := by omega
    have hchlen : check ≤ (rollingMeanQ w closes).length := by
      rw [rollingMeanQ_length]; omega
    have hcuridx : closes.length - 1 < closes.length := by omega
    have hpastidx : closes.length - check < closes.length := by omega
    have hcur : (rollingMeanQ w closes).getD (closes.length - 1) none =
        some (windowMean closes (closes.length - 1) w) := by
      rw [rollingMeanQ_getD w closes _ hcuridx]
      have h1 : ¬ w = 0 := by omega
      have h2 : ¬ closes.length - 1 + 1 < w := by omega
      simp [h1, h2]
    have hpast : (rollingMeanQ w closes).getD (closes.length - check) none =
        some (windowMean closes (closes.length - check) w) := by
      rw [rollingMeanQ_getD w closes _ hpastidx]
      have h1 : ¬ w = 0 := by omega
      have h2 : ¬ closes.length - check + 1 < w := by omega
      simp [h1, h2]
    have hc0 : ¬ check = 0 := by omega
    simp only [is_200_ma_increasing_recently, if_pos hn, if_pos hchlen,
      if_neg hc0, hcur, hpast]
    exact decide_eq_true_iff

/-- Witness for `ma200_increase_spec`: the short-history branch on an empty
series and the sufficiency branch on a three-point series with window 2. -/
theorem ma200_increase_spec_witness :
    is_200_ma_increasing_recently [] 0 2 2 = false ∧
    (is_200_ma_increasing_recently [1, 2, 3] 0 2 2 = true ↔
      windowMean [1, 2, 3] 1 2 * (1 - 0) ≤ windowMean [1, 2, 3] 2 2) := by
  constructor
  · exact (ma200_increase_spec [] 0 2 2 (by norm_num) (by norm_num)).1 (by norm_num)
  · exact (ma200_increase_spec [1, 2, 3] 0 2 2 (by norm_num) (by norm_num)).2 (by norm_num)

/-! ## Claim theorems: sell decision priority -/

/-- C1: for a holding with positive quantity, positive average price and
positive resolved current price, the decision of the sell engine is
`STOP_LOSS` with the full held quantity exactly when
`(currentPrice - avgPrice)/avgPrice ≤ -STOP_LOSS_PCT`, whatever the trailing,
AVSL and trend inputs are; and the boundary example `avgPrice=100,
currentPrice=90` with the 10% default yields `STOP_LOSS`. -/
theorem stop_loss_priority (cfg : SellConfig) (h : Holding)
    (finderPrice atrValue : ℚ)
    (selectedBuy selectedNotSell : List String)
    (avslSignals : List (String × Bool))
    (tstate : TrailState) (clog : CooldownLog) (today : ℤ)
    (hq : 0 < h.quantity) (ha : 0 < h.avgPrice)
    (hc : 0 < resolveCurrentPrice finderPrice h.currentPrice) :
    (((evaluate_holding cfg h finderPrice atrValue selectedBuy selectedNotSell
          avslSignals tstate clog today).1.reason = SellReason.stopLoss ∧
        (evaluate_holding cfg h finderPrice atrValue selectedBuy selectedNotSell
          avslSignals tstate clog today).1.quantity = h.quantity) ↔
      (resolveCurrentPrice finderPrice h.currentPrice - h.avgPrice) / h.avgPrice ≤
        -cfg.stopLossPct) ∧
    (evaluate_holding ⟨1/10, true, 5/100, 2⟩ ⟨"EGAN", 1, 100, 0⟩ 90 1
        ["EGAN"] ["EGAN"] [("EGAN", true)] [] [] 0).1 =
      ⟨"EGAN", SellReason.stopLoss, 1⟩ := by
  constructor
  · have hq' : ¬ h.quantity ≤ 0 := not_le.mpr hq
    by_cases hloss : (resolveCurrentPrice finderPrice h.currentPrice - h.avgPrice) /
        h.avgPrice ≤ -cfg.stopLossPct
    · have hcond : 0 < h.avgPrice ∧ 0 < resolveCurrentPrice finderPrice h.currentPrice ∧
          (resolveCurrentPrice finderPrice h.currentPrice - h.avgPrice) / h.avgPrice ≤
            -cfg.stopLossPct := ⟨ha, hc, hloss⟩
      simp only [evaluate_holding, if_neg hq', if_pos hcond]
      simp [hloss]
    · have hcond : ¬ (0 < h.avgPrice ∧ 0 < resolveCurrentPrice finderPrice h.currentPrice ∧
          (resolveCurrentPrice finderPrice h.currentPrice - h.avgPrice) / h.avgPrice ≤
            -cfg.stopLossPct) := fun hcontra => hloss hcontra.2.2
      simp only [evaluate_holding, if_neg hq', if_neg hcond]
      apply iff_of_false _ hloss
      rintro ⟨hr, -⟩
      revert hr
      split_ifs <;> simp
  · have hq' : ¬ (⟨"EGAN", 1, 100, 0⟩ : Holding).quantity ≤ 0 := by norm_num
    have hcond : 0 < (⟨"EGAN", 1, 100, 0⟩ : Holding).avgPrice ∧
        0 < resolveCurrentPrice 90 (⟨"EGAN", 1, 100, 0⟩ : Holding).currentPrice ∧
        (resolveCurrentPrice 90 (⟨"EGAN", 1, 100, 0⟩ : Holding).currentPrice -
            (⟨"EGAN", 1, 100, 0⟩ : Holding).avgPrice) /
          (⟨"EGAN", 1, 100, 0⟩ : Holding).avgPrice ≤
          -(⟨1/10, true, 5/100, 2⟩ : SellConfig).stopLossPct := by
      refine ⟨by norm_num, ?_, ?_⟩ <;> norm_num [resolveCurrentPrice]
    simp only [evaluate_holding, if_neg hq', if_pos hcond]

/-- Witness for `stop_loss_priority`: concrete holding at the exact −10%
boundary, all lower-tier conditions simultaneously true. -/
theorem stop_loss_priority_witness :
    ((evaluate_holding ⟨1/10, true, 5/100, 2⟩ ⟨"EGAN", 1, 100, 0⟩ 90 1
        ["EGAN"] ["EGAN"] [("EGAN", true)] [] [] 0).1.reason = SellReason.stopLoss ∧
      (evaluate_holding ⟨1/10, true, 5/100, 2⟩ ⟨"EGAN", 1, 100, 0⟩ 90 1
        ["EGAN"] ["EGAN"] [("EGAN", true)] [] [] 0).1.quantity = 1) := by
  have hmain := (stop_loss_priority ⟨1/10, true, 5/100, 2⟩ ⟨"EGAN", 1, 100, 0⟩ 90 1
    ["EGAN"] ["EGAN"] [("EGAN", true)] [] [] 0 (by norm_num) (by norm_num)
    (by norm_num [resolveCurrentPrice])).1
  exact hmain.mpr (by norm_num [resolveCurrentPrice])

/-! ## Claim theorems: position sizer (allocation) -/

/-- The equal-distribution per-stock amount
`buyableCash * (1 - reserveRatio) / |buySet|`. -/
def equalPerStock (cfg : InvestmentCfg) (b : AccountBalance) (n : ℕ) : ℚ :=
  b.buyableCash * (1 - cfg.reserveRatio) / n

/-- The per-stock amount after the `maxInvestment` cap (applied only when the
configured maximum is positive). -/
def cappedPerStock (cfg : InvestmentCfg) (per : ℚ) : ℚ :=
  if 0 < cfg.maxInvestment ∧ cfg.maxInvestment < per then cfg.maxInvestment else per

lemma cap_eval (cfg : InvestmentCfg) (per : ℚ) :
    (match resolveMaxInvestment none cfg.maxInvestment with
      | some m => if m ≠ 0 ∧ m < per then m else per
      | none => per) = cappedPerStock cfg per := by
  by_cases hmax : 0 < cfg.maxInvestment
  · have hne : cfg.maxInvestment ≠ 0 := ne_of_gt hmax
    by_cases hlt : cfg.maxInvestment < per
    · simp [resolveMaxInvestment, cappedPerStock, hmax, hne, hlt]
    · simp [resolveMaxInvestment, cappedPerStock, hmax, hne, hlt]
  · simp [resolveMaxInvestment, cappedPerStock, hmax]

/-- C5: under the equal distribution strategy every buy candidate is allocated
`buyableCash * (1 - reserveRatio) / |buySet|`, capped at `maxInvestment` when
that is configured positive; if the (possibly capped) allocation clears
`minInvestment` the plan contains every candidate at that (cent-rounded)
amount, and if it falls below `minInvestment` every candidate is dropped (the
plan is `None`, never rounded up).  Scenario D: buy set of 3,
`buyableCash=1000`, `reserveRatio=0.1`, `minInvestment=300` gives all three
symbols exactly 300. -/
theorem equal_distribution_spec (cfg : InvestmentCfg) (buyItems : List String)
    (b : AccountBalance) (hne : buyItems ≠ [])
    (hstrat : cfg.distributionStrategy = "equal") (hcash : 0 < b.buyableCash) :
    ((cfg.minInvestment ≤ cappedPerStock cfg (equalPerStock cfg b buyItems.length) →
      calculate_investment_per_stock cfg buyItems (some b) none none none =
        some (buyItems.map fun s =>
          (s, round2 (cappedPerStock cfg (equalPerStock cfg b buyItems.length))))) ∧
     (cappedPerStock cfg (equalPerStock cfg b buyItems.length) < cfg.minInvestment →
      calculate_investment_per_stock cfg buyItems (some b) none none none = none)) ∧
    calculate_investment_per_stock ⟨1/10, 300, 0, "equal", 0⟩ ["A", "B", "C"]
      (some ⟨1000, 1000, 1000⟩) none none none =
      some [("A", 300), ("B", 300), ("C", 300)] := by
  constructor
  · have hcash' : ¬ b.buyableCash ≤ 0 := not_le.mpr hcash
    have hstrat' : ¬ (cfg.distributionStrategy = "proportional" ∧
        0 < cfg.proportionalPercentage) := by
      rw [hstrat]; rintro ⟨hcontra, -⟩; exact absurd hcontra (by decide)
    have hunfold : equalPerStock cfg b buyItems.length =
        b.buyableCash * (1 - cfg.reserveRatio) / buyItems.length := rfl
    constructor
    · intro hmin
      simp only [calculate_investment_per_stock, if_neg hne, Option.getD_none,
        if_neg hcash', if_neg hstrat', cap_eval]
      rw [← hunfold]
      have hfm : buyItems.filterMap (fun s =>
          if cfg.minInvestment ≤ cappedPerStock cfg (equalPerStock cfg b buyItems.length)
          then some (s, cappedPerStock cfg (equalPerStock cfg b buyItems.length))
          else none) = buyItems.map fun s =>
            (s, cappedPerStock cfg (equalPerStock cfg b buyItems.length)) := by
        simp only [if_pos hmin]
        exact congrFun (List.filterMap_eq_map _) buyItems
      rw [hfm]
      have hmapne : (buyItems.map fun s =>
          (s, cappedPerStock cfg (equalPerStock cfg b buyItems.length))) ≠ [] := by
        simpa using hne
      rw [if_neg hmapne, List.map_map]
      rfl
    · intro hmin
      have hmin' : ¬ cfg.minInvestment ≤
          cappedPerStock cfg (equalPerStock cfg b buyItems.length) := not_le.mpr hmin
      simp only [calculate_investment_per_stock, if_neg hne, Option.getD_none,
        if_neg hcash', if_neg hstrat', cap_eval]
      rw [← hunfold]
      have hfm : buyItems.filterMap (fun s =>
          if cfg.minInvestment ≤ cappedPerStock cfg (equalPerStock cfg b buyItems.length)
          then some (s, cappedPerStock cfg (equalPerStock cfg b buyItems.length))
          else none) = [] := by
        simp [hmin']
      rw [hfm]
      simp
  · have hround : round2 300 = 300 := by
      have h30000 : ⌊(30000 : ℚ)⌋ = 30000 := by norm_num
      norm_num [round2, roundHalfEvenZ, h30000]
    have hper : (1000 : ℚ) * (1 - 1/10) / ((3 : ℕ) : ℚ) = 300 := by norm_num
    norm_num [calculate_investment_per_stock, resolveMaxInvestment,
      List.filterMap_cons, hround]
    exact ⟨by simp, by simp⟩

/-- Witness for `equal_distribution_spec` discharging its hypotheses at a
concrete single-stock input. -/
theorem equal_distribution_spec_witness :
    calculate_investment_per_stock ⟨1/10, 300, 0, "equal", 0⟩ ["A", "B", "C"]
      (some ⟨1000, 1000, 1000⟩) none none none =
      some [("A", 300), ("B", 300), ("C", 300)] :=
  (equal_distribution_spec ⟨1/10, 300, 0, "equal", 0⟩ ["A", "B", "C"]
    ⟨1000, 1000, 1000⟩ (by simp) rfl (by norm_num)).2

/-! ## Claim theorems: position sizer (share quantities) -/

lemma lookup_filterMap_keyed {β : Type} (l : List (String × ℚ))
    (g : String → ℚ → Option β) (s : String) (inv : ℚ) (b : β)
    (hl : l.lookup s = some inv) (hg : g s inv = some b) :
    (l.filterMap fun p => (g p.1 p.2).map fun i => (p.1, i)).lookup s = some b := by
  induction l with
  | nil => simp at hl
  | cons p t ih =>
    obtain ⟨k, v⟩ := p
    by_cases hk : k = s
    · subst hk
      have hbeq : (k == k) = true := beq_self_eq_true k
      rw [List.lookup, hbeq] at hl
      have hv : v = inv := by injection hl
      subst hv
      simp [List.filterMap_cons, hg, List.lookup, hbeq]
    · have hbeq : (s == k) = false := beq_eq_false_iff_ne.mpr (Ne.symm hk)
      rw [List.lookup, hbeq] at hl
      rcases hgk : g k v with _ | bb
      · simpa [List.filterMap_cons, hgk] using ih hl
      · simpa [List.filterMap_cons, hgk, List.lookup, hbeq] using ih hl

lemma lookup_filterMap_not_mem {β : Type} (l : List (String × ℚ))
    (g : String → ℚ → Option β) (s : String) (hs : s ∉ l.map Prod.fst) :
    (l.filterMap fun p => (g p.1 p.2).map fun i => (p.1, i)).lookup s = none := by
  induction l with
  | nil => simp
  | cons p t ih =>
    obtain ⟨k, v⟩ := p
    have hk : k ≠ s := fun hcontra => hs (by simp [hcontra])
    have hst : s ∉ t.map Prod.fst := fun hcontra => hs (by simp [hcontra])
    have hbeq : (s == k) = false := beq_eq_false_iff_ne.mpr (Ne.symm hk)
    rcases hgk : g k v with _ | bb
    · simpa [List.filterMap_cons, hgk] using ih hst
    · simpa [List.filterMap_cons, hgk, List.lookup, hbeq] using ih hst

lemma lookup_filterMap_keyed_none {β : Type} (l : List (String × ℚ))
    (g : String → ℚ → Option β) (s : String) (inv : ℚ)
    (hl : l.lookup s = some inv) (hg : g s inv = none)
    (hnd : (l.map Prod.fst).Nodup) :
    (l.filterMap fun p => (g p.1 p.2).map fun i => (p.1, i)).lookup s = none := by
  induction l with
  | nil => simp at hl
  | cons p t ih =>
    obtain ⟨k, v⟩ := p
    by_cases hk : k = s
    · subst hk
      have hbeq : (k == k) = true := beq_self_eq_true k
      rw [List.lookup, hbeq] at hl
      have hv : v = inv := by injection hl
      subst hv
      have hknot : k ∉ t.map Prod.fst := by
        have := hnd
        simp only [List.map_cons, List.nodup_cons] at this
        exact this.1
      simp only [List.filterMap_cons, hg, Option.map_none]
      exact lookup_filterMap_not_mem t g k hknot
    · have hbeq : (s == k) = false := beq_eq_false_iff_ne.mpr (Ne.symm hk)
      rw [List.lookup, hbeq] at hl
      have hnd' : (t.map Prod.fst).Nodup := by
        simp only [List.map_cons, List.nodup_cons] at hnd
        exact hnd.2
      rcases hgk : g k v with _ | bb
      · simpa [List.filterMap_cons, hgk] using ih hl hnd'
      · simpa [List.filterMap_cons, hgk, List.lookup, hbeq] using ih hl hnd'

/-- C8: for a symbol in the investment plan with a positive current price, the
computed shares to buy is `targetShareCount = int(allocation / price)` when
nothing is held and `max(targetShareCount - int(held), 0)` otherwise; a symbol
already holding exactly `targetShareCount` shares gets zero shares to buy; and
a symbol whose target count is not positive is excluded from the result
entirely. -/
theorem sizing_idempotence_spec (investmentMap prices holdings : List (String × ℚ))
    (s : String) (inv : ℚ)
    (hlk : investmentMap.lookup s = some inv)
    (hp : 0 < (prices.lookup s).getD 0) :
    (1 ≤ truncQ (inv / (prices.lookup s).getD 0) →
      ∃ m, calculate_share_quantities investmentMap prices holdings = some m ∧
        ∃ info, m.lookup s = some info ∧
          info.sharesToBuy =
            (if ((holdingsMapOf holdings).lookup s).getD 0 = 0 then
              truncQ (inv / (prices.lookup s).getD 0)
             else max (truncQ (inv / (prices.lookup s).getD 0) -
                truncQ (((holdingsMapOf holdings).lookup s).getD 0)) 0) ∧
          (((holdingsMapOf holdings).lookup s).getD 0 =
              (truncQ (inv / (prices.lookup s).getD 0) : ℚ) →
            info.sharesToBuy = 0)) ∧
    (truncQ (inv / (prices.lookup s).getD 0) ≤ 0 →
      (investmentMap.map Prod.fst).Nodup →
      ∀ m, calculate_share_quantities investmentMap prices holdings = some m →
        m.lookup s = none) := by
  have hne : investmentMap ≠ [] := by
    intro hcontra
    rw [hcontra] at hlk
    simp at hlk
  have hp' : ¬ (prices.lookup s).getD 0 ≤ 0 := not_le.mpr hp
  constructor
  · intro htarget
    have ht' : ¬ truncQ (inv / (prices.lookup s).getD 0) ≤ 0 := by omega
    set price := (prices.lookup s).getD 0 with hprice
    set held := ((holdingsMapOf holdings).lookup s).getD 0 with hheld
    set target := truncQ (inv / price) with htargetdef
    have hg : shareInfoFor inv price held =
        some ⟨round2 inv, round2 price,
          (if held = 0 then target else max (target - truncQ held) 0),
          truncQ held,
          (if held = 0 then target else max (target - truncQ held) 0),
          truncQ held + (if held = 0 then target else max (target - truncQ held) 0),
          round2 ((((if held = 0 then target else max (target - truncQ held) 0) : ℤ) : ℚ) *
            price)⟩ := by
      rw [shareInfoFor, if_neg hp', ← htargetdef, if_neg ht']
    have hlkresult := lookup_filterMap_keyed investmentMap
      (fun k v => shareInfoFor v ((prices.lookup k).getD 0)
        (((holdingsMapOf holdings).lookup k).getD 0)) s inv _ hlk hg
    have hresne : (investmentMap.filterMap fun p =>
        (shareInfoFor p.2 ((prices.lookup p.1).getD 0)
          (((holdingsMapOf holdings).lookup p.1).getD 0)).map fun i => (p.1, i)) ≠ [] := by
      intro hcontra
      rw [hcontra] at hlkresult
      simp at hlkresult
    refine ⟨investmentMap.filterMap fun p =>
        (shareInfoFor p.2 ((prices.lookup p.1).getD 0)
          (((holdingsMapOf holdings).lookup p.1).getD 0)).map fun i => (p.1, i), ?_, ?_⟩
    · rw [calculate_share_quantities, if_neg hne, if_neg hresne]
    · refine ⟨_, hlkresult, rfl, ?_⟩
      intro hexact
      have hne0 : ¬ held = 0 := by
        rw [hexact]
        intro hcontra
        have : target = 0 := by exact_mod_cast hcontra
        omega
      simp only [if_neg hne0]
      rw [hexact, truncQ_intCast]
      simp
  · intro htarget hnd m hm
    have hg : shareInfoFor inv ((prices.lookup s).getD 0)
        (((holdingsMapOf holdings).lookup s).getD 0) = none := by
      rw [shareInfoFor, if_neg hp', if_pos htarget]
    have hlknone := lookup_filterMap_keyed_none investmentMap
      (fun k v => shareInfoFor v ((prices.lookup k).getD 0)
        (((holdingsMapOf holdings).lookup k).getD 0)) s inv hlk hg hnd
    rw [calculate_share_quantities, if_neg hne] at hm
    simp only at hm
    by_cases hresnil : (investmentMap.filterMap fun p =>
        (shareInfoFor p.2 ((prices.lookup p.1).getD 0)
          (((holdingsMapOf holdings).lookup p.1).getD 0)).map fun i => (p.1, i)) = []
    · rw [if_pos hresnil] at hm
      cases hm
    · rw [if_neg hresnil] at hm
      injection hm with hm'
      rw [← hm']
      exact hlknone

/-- Witness for `sizing_idempotence_spec`: a symbol already holding exactly the
target share count gets zero shares to buy. -/
theorem sizing_idempotence_spec_witness :
    ∃ m, calculate_share_quantities [("A", 100)] [("A", 10)] [("A", 10)] = some m ∧
      ∃ info, m.lookup "A" = some info ∧
        info.sharesToBuy =
          (if (((holdingsMapOf [("A", 10)]).lookup "A").getD 0 : ℚ) = 0 then
            truncQ (100 / (([("A", (10 : ℚ))].lookup "A").getD 0))
           else max (truncQ (100 / (([("A", (10 : ℚ))].lookup "A").getD 0)) -
              truncQ ((((holdingsMapOf [("A", 10)]).lookup "A").getD 0 : ℚ))) 0) ∧
        ((((holdingsMapOf [("A", 10)]).lookup "A").getD 0 : ℚ) =
            (truncQ ((100 : ℚ) / (([("A", (10 : ℚ))].lookup "A").getD 0)) : ℚ) →
          info.sharesToBuy = 0) := by
  have h10 : (([("A", (10 : ℚ))].lookup "A").getD 0) = 10 := by
    simp [List.lookup]
  exact (sizing_idempotence_spec [("A", 100)] [("A", 10)] [("A", 10)] "A" 100
    (by simp [List.lookup]) (by rw [h10]; norm_num)).1
    (by rw [h10]
        have : truncQ ((100 : ℚ) / 10) = 10 := by
          rw [show ((100 : ℚ) / 10) = ((10 : ℤ) : ℚ) by norm_num, truncQ_intCast]
        omega)

/-! ## stock_analysis.py: Buff-Dormeier AVSL

The pandas pipeline is embedded over `Option ℚ` cells: `none` models a
non-finite float cell (`NaN`; a division by zero, which pandas turns into
`NaN` or `±inf`, is also mapped to `none` — in this code the only novel effect
of an `inf` cell would be inside `clip`, and the claims below never depend on
an input that produces one).  A rolling window that is not yet full is `NaN`,
exactly as `Series.rolling(w)` with the default `min_periods`.

A rolling standard deviation is irrational in general, so an AVSL cell
`ma - stddev_mult * std` is represented exactly as the pair `(ma, var)` of the
rolling mean and the rolling sample variance (`ddof=1`, as pandas), with the
represented value `ma - stddevMult * sqrt var`; the two comparisons the code
performs on AVSL values (`avsl <= 0` in `get_latest_avsl` and
`close < avsl` in `check_avsl_sell_signal`) are implemented exactly on this
representation by `avslNonPositive` and `ltAVSL`, certified against
`Real.sqrt` below. -/

/-- A pandas cell: `none` is a non-finite value. -/
abbrev NQ := Option ℚ

/-- Elementwise binary operation with NaN propagation. -/
def nBin (f : ℚ → ℚ → ℚ) (a b : NQ) : NQ :=
  match a, b with
  | some x, some y => some (f x y)
  | _, _ => none

/-- Elementwise division: NaN propagates, and a zero divisor yields a
non-finite cell (pandas produces `NaN` or `±inf` there). -/
def nDiv (a b : NQ) : NQ :=
  match a, b with
  | some x, some y => if y = 0 then none else some (x / y)
  | _, _ => none

/-- Elementwise absolute value (`np.abs`). -/
def nAbs (a : NQ) : NQ := a.map abs

/-- All-finite extraction: `some` of the values when no cell is `NaN`. -/
def seqOption {α : Type} : List (Option α) → Option (List α)
  | [] => some []
  | none :: _ => none
  | some v :: t => (seqOption t).map (fun l => v :: l)

/-- Pandas `series.rolling(window=w).mean()` over NaN-aware cells: `NaN` while
the window is not full or when it contains a `NaN`. -/
def rollingMeanN (w : ℕ) (xs : List NQ) : List NQ :=
  (List.range xs.length).map fun i =>
    if w = 0 ∨ i + 1 < w then none
    else
      match seqOption ((xs.take (i + 1)).drop (i + 1 - w)) with
      | some vs => some (vs.sum / w)
      | none => none

/-- Pandas `series.rolling(window=w).sum()` over NaN-aware cells. -/
def rollingSumN (w : ℕ) (xs : List NQ) : List NQ :=
  (List.range xs.length).map fun i =>
    if w = 0 ∨ i + 1 < w then none
    else
      match seqOption ((xs.take (i + 1)).drop (i + 1 - w)) with
      | some vs => some vs.sum
      | none => none

/-- Pandas rolling sample variance (the square of `rolling(w).std()`,
`ddof = 1`): `NaN` for a window of one (zero degrees of freedom), while the
window is not full, or when it contains a `NaN`. -/
def rollingVarN (w : ℕ) (xs : List NQ) : List NQ :=
  (List.range xs.length).map fun i =>
    if w ≤ 1 ∨ i + 1 < w then none
    else
      match seqOption ((xs.take (i + 1)).drop (i + 1 - w)) with
      | some vs =>
          let mean := vs.sum / w
          some ((vs.map fun x => (x - mean) ^ 2).sum / ((w : ℚ) - 1))
      | none => none

/-- Forward fill (`Series.ffill()`): a `NaN` cell takes the last finite value
before it; leading `NaN`s stay `NaN`. -/
def ffillAux {α : Type} (prev : Option α) : List (Option α) → List (Option α)
  | [] => []
  | some v :: t => some v :: ffillAux (some v) t
  | none :: t => prev :: ffillAux prev t

/-- Forward fill from an empty carry. -/
def ffillL {α : Type} (l : List (Option α)) : List (Option α) := ffillAux none l

/-- The last finite cell (`series.dropna().iloc[-1]`). -/
def lastSome {α : Type} (l : List (Option α)) : Option α := (l.filterMap id).getLast?

/-- Clamp (`Series.clip(lower, upper)` on a single cell). -/
def clipQ (x lo hi : ℚ) : ℚ := max lo (min x hi)

/-- Modelled from the spec (§4.2): the constants `AVSLConfig.FAST_PERIOD`,
`SLOW_PERIOD`, `BARS`, `STDDEV_MULT`, `MIN_LENGTH` and `MAX_LENGTH` are
referenced by stock_analysis.py but are not defined in the copy of config.py
in the repository (its `AVSLConfig` holds only the legacy-mode constants), so
the AVSL functions are parameterized by this record. -/
structure AvslCfg where
  fastPeriod : ℕ
  slowPeriod : ℕ
  bars : ℕ
  stddevMult : ℚ
  minLength : ℤ
  maxLength : ℤ
  deriving Repr, DecidableEq

/-- One symbol's OHLCV series (aligned positional arrays, as the columns of
the single yfinance DataFrame). -/
structure SymbolData where
  high : List ℚ
  low : List ℚ
  close : List ℚ
  volume : List ℚ
  deriving Repr, DecidableEq

/-- The `typical_price * volume` series of `calculate_vpci_components`. -/
def tpTimesVolOf (d : SymbolData) : List NQ :=
  (((d.high.zip (d.low.zip d.close)).map
    fun p => (p.1 + p.2.1 + p.2.2) / 3).zip d.volume).map fun p => some (p.1 * p.2)

/-- The rolling VWAP of `calculate_vpci_components`:
`(typical_price*volume).rolling(slow).sum() / volume.rolling(slow).sum()`. -/
def vwapOf (cfg : AvslCfg) (d : SymbolData) : List NQ :=
  List.zipWith nDiv (rollingSumN cfg.slowPeriod (tpTimesVolOf d))
    (rollingSumN cfg.slowPeriod (d.volume.map some))

/-- The `VPC` column: `(close - vwap) / close`. -/
def vpcOf (cfg : AvslCfg) (d : SymbolData) : List NQ :=
  List.zipWith nDiv
    (List.zipWith (nBin fun a b => a - b) (d.close.map some) (vwapOf cfg d))
    (d.close.map some)

/-- The `VPR` column: `fast_ma_price / slow_ma_price`. -/
def vprOf (cfg : AvslCfg) (d : SymbolData) : List NQ :=
  List.zipWith nDiv (rollingMeanN cfg.fastPeriod (d.close.map some))
    (rollingMeanN cfg.slowPeriod (d.close.map some))

/-- The `VM` column: `fast_ma_volume / slow_ma_volume.replace(0, nan)`, which
is division with a zero divisor mapped to NaN — exactly `nDiv`. -/
def vmOf (cfg : AvslCfg) (d : SymbolData) : List NQ :=
  List.zipWith nDiv (rollingMeanN cfg.fastPeriod (d.volume.map some))
    (rollingMeanN cfg.slowPeriod (d.volume.map some))

/-- The `VPCI` column: `np.abs(vpc) * vpr * vm`. -/
def vpciOf (cfg : AvslCfg) (d : SymbolData) : List NQ :=
  List.zipWith (nBin fun a b => a * b)
    (List.zipWith (nBin fun a b => a * b) ((vpcOf cfg d).map nAbs) (vprOf cfg d))
    (vmOf cfg d)

/-- Embedding of `UsaStockFinder.calculate_vpci_components` (lines 544-631)
for one symbol, returning the `VPC` and `VPCI` columns (the only ones read
downstream).  `None` when the close series is empty or shorter than the slow
period (missing symbols are represented by empty series). -/
def calculate_vpci_components (cfg : AvslCfg) (d : SymbolData) :
    Option (List NQ × List NQ) :=
  if d.close.length = 0 ∨ d.close.length < cfg.slowPeriod then none
  else some (vpcOf cfg d, vpciOf cfg d)

/-- The `price_component` series of `calculate_avsl_series`:
`low * (1 + vpc * 0.1)`. -/
def priceComponentOf (d : SymbolData) (vpc : List NQ) : List NQ :=
  List.zipWith (nBin fun a b => a * b) (d.low.map some)
    (vpc.map fun x => x.map fun v => 1 + v * (1/10))

/-- The `dynamic_length` series of `calculate_avsl_series` before
`astype(int)`: `(MIN_LENGTH + avg_vpci*10).clip(MIN_LENGTH,
MAX_LENGTH).round()`, cellwise on the rolling VPCI mean. -/
def dynamicLengthOf (cfg : AvslCfg) (vpci : List NQ) : List (Option ℤ) :=
  (rollingMeanN cfg.bars vpci).map fun x => x.map fun v =>
    roundHalfEvenZ (clipQ ((cfg.minLength : ℚ) + v * 10) (cfg.minLength : ℚ)
      (cfg.maxLength : ℚ))

/-- Embedding of `UsaStockFinder.calculate_avsl_series` (lines 633-722) for
one symbol.  Cells of the returned series are `(rolling mean, rolling sample
variance)` pairs representing `ma - stddevMult*sqrt(var)` (see the section
comment).  The `dynamic_length` series is converted with `astype(int)`, which
raises pandas' `IntCastingNaNError` (a `ValueError`, caught by the function's
`except` clause, hence `None`) as soon as any cell is non-finite — that is the
`seqOption` match; pandas `rolling` likewise rejects a non-positive window
with a `ValueError`, hence the `recentLength < 1` guard. -/
def calculate_avsl_series (cfg : AvslCfg) (d : SymbolData) :
    Option (List (Option (ℚ × ℚ))) :=
  match calculate_vpci_components cfg d with
  | none => none
  | some (vpc, vpci) =>
    if d.low.length = 0 ∨ vpci.length < cfg.bars then none
    else
      match seqOption (dynamicLengthOf cfg vpci) with
      | none => none
      | some lens =>
        let recentLength := max cfg.minLength (min (lens.getLastD cfg.minLength)
          cfg.maxLength)
        if recentLength < 1 then none
        else
          let w := recentLength.toNat
          some (ffillL (List.zipWith (fun a b =>
            match a, b with
            | some m, some v => some (m, v)
            | _, _ => none) (rollingMeanN w (priceComponentOf d vpc))
            (rollingVarN w (priceComponentOf d vpc))))

/-- The exact test for `avsl_value <= 0` on the `(ma, var)` representation
(`value = m - mult*sqrt(v)`, `v ≥ 0`); certified by `avslNonPositive_iff`. -/
def avslNonPositive (m v mult : ℚ) : Bool :=
  if 0 ≤ mult then decide (m ≤ 0 ∨ m ^ 2 ≤ mult ^ 2 * v)
  else decide (m ≤ 0 ∧ mult ^ 2 * v ≤ m ^ 2)

/-- The exact test for `close < avsl_value` on the `(ma, var)` representation;
certified by `ltAVSL_iff`. -/
def ltAVSL (c m v mult : ℚ) : Bool :=
  if 0 ≤ mult then decide (0 < m - c ∧ mult ^ 2 * v < (m - c) ^ 2)
  else decide (0 < m - c ∨ (m - c) ^ 2 < mult ^ 2 * v)

/-- Embedding of `UsaStockFinder.get_latest_avsl` (lines 724-749): the last
finite AVSL cell, or `None` when the series cannot be computed, is empty, has
no finite cell, or its latest value is not positive. -/
def get_latest_avsl (cfg : AvslCfg) (d : SymbolData) : Option (ℚ × ℚ) :=
  match calculate_avsl_series cfg d with
  | none => none
  | some series =>
    if series = [] then none
    else
      match lastSome series with
      | none => none
      | some (m, v) =>
          if avslNonPositive m v cfg.stddevMult then none else some (m, v)

/-- Embedding of the Buff-Dormeier branch of
`UsaStockFinder.check_avsl_sell_signal` (lines 848-895) for one symbol:
`False` when the latest AVSL is unavailable or the close series is empty,
otherwise `close.iloc[-1] < latest_avsl`. -/
def check_avsl_sell_signal_buff (cfg : AvslCfg) (d : SymbolData) : Bool :=
  match get_latest_avsl cfg d with
  | none => false
  | some (m, v) =>
    if d.close.length = 0 then false
    else
      match d.close.getLast? with
      | none => false
      | some c => ltAVSL c m v cfg.stddevMult

/-! ## Spec model of the AVSL signal (for comparison with the code) -/

/-- Modelled from the spec (§4.2): division with the divide-by-zero guard
"treat as 1.0" used for VPR and VM. -/
def nDivGuard (a b : NQ) : NQ :=
  match a, b with
  | some x, some y => if y = 0 then some 1 else some (x / y)
  | _, _ => none

/-- Modelled from the spec (§4.2): `VPC = (close − VWAP_N)/close`, with
`VWAP_N` the volume-weighted typical-price average over the slow window. -/
def specVpcList (cfg : AvslCfg) (d : SymbolData) : List NQ :=
  List.zipWith nDiv
    (List.zipWith (nBin fun a b => a - b) (d.close.map some)
      (List.zipWith nDiv (rollingSumN cfg.slowPeriod (tpTimesVolOf d))
        (rollingSumN cfg.slowPeriod (d.volume.map some))))
    (d.close.map some)

/-- Modelled from the spec (§4.2): `VPCI = |VPC| · VPR · VM` with
`VPR = MA_fast(close)/MA_slow(close)` and `VM = MA_fast(vol)/MA_slow(vol)`
(divide-by-zero guard treated as 1.0). -/
def specVpciList (cfg : AvslCfg) (d : SymbolData) : List NQ :=
  List.zipWith (nBin fun a b => a * b)
    (List.zipWith (nBin fun a b => a * b) ((specVpcList cfg d).map nAbs)
      (List.zipWith nDivGuard (rollingMeanN cfg.fastPeriod (d.close.map some))
        (rollingMeanN cfg.slowPeriod (d.close.map some))))
    (List.zipWith nDivGuard (rollingMeanN cfg.fastPeriod (d.volume.map some))
      (rollingMeanN cfg.slowPeriod (d.volume.map some)))

/-- Modelled from the spec (§4.2): the dynamic band length
`clamp(MIN_LENGTH + round(10·rollingMean(VPCI, slowWindow)), MIN_LENGTH,
MAX_LENGTH)`, read at the most recent bar; unavailable when the latest rolling
VPCI mean is non-finite or the series is empty. -/
def specDynamicLength (cfg : AvslCfg) (d : SymbolData) : Option ℤ :=
  match (rollingMeanN cfg.slowPeriod (specVpciList cfg d)).getLast? with
  | some (some v) =>
      some (max cfg.minLength (min (cfg.minLength + roundHalfEvenZ (10 * v))
        cfg.maxLength))
  | _ => none

/-- Modelled from the spec (§4.2): the latest AVSL value
`rollingMean(priceComponent, length) − stddevMult·rollingStd(priceComponent,
length)` with `priceComponent = low·(1 + 0.1·VPC)`, forward-filled over gaps
(the latest value after a forward fill is the last finite cell).  Represented
as the `(mean, variance)` pair, as in the code embedding. -/
def specAVSLlatest (cfg : AvslCfg) (d : SymbolData) : Option (ℚ × ℚ) :=
  match specDynamicLength cfg d with
  | none => none
  | some len =>
    if len < 1 then none
    else
      let w := len.toNat
      let pc := List.zipWith (nBin fun a b => a * b) (d.low.map some)
        ((specVpcList cfg d).map fun x => x.map fun v => 1 + v * (1/10))
      lastSome (List.zipWith (fun a b =>
        match a, b with
        | some m, some v => some (m, v)
        | _, _ => none) (rollingMeanN w pc) (rollingVarN w pc))

/-- Modelled from the spec (§4.2): the AVSL sell signal — `true` iff the
latest close is strictly below the latest AVSL value, and `false` (not an
error) when any series is too short, any intermediate value is non-finite, or
the AVSL value is not positive. -/
def specAvslSignal (cfg : AvslCfg) (d : SymbolData) : Bool :=
  match specAVSLlatest cfg d, d.close.getLast? with
  | some (m, v), some c =>
      if avslNonPositive m v cfg.stddevMult then false
      else ltAVSL c m v cfg.stddevMult
  | _, _ => false

/-! ## Certification of the `(mean, variance)` comparisons against `Real.sqrt` -/

lemma avslNonPositive_iff (m v mult : ℚ) (hv : 0 ≤ v) :
    avslNonPositive m v mult = true ↔
      (m : ℝ) - (mult : ℝ) * Real.sqrt (v : ℝ) ≤ 0 := by
  have hv' : (0:ℝ) ≤ (v:ℝ) := by exact_mod_cast hv
  have hs0 : 0 ≤ Real.sqrt (v:ℝ) := Real.sqrt_nonneg _
  have hs2 : Real.sqrt (v:ℝ) ^ 2 = (v:ℝ) := Real.sq_sqrt hv'
  set s := Real.sqrt (v:ℝ) with hsdef
  unfold avslNonPositive
  by_cases hm : (0:ℚ) ≤ mult
  · have hm' : (0:ℝ) ≤ (mult:ℝ) := by exact_mod_cast hm
    rw [if_pos hm, decide_eq_true_iff]
    constructor
    · rintro (h | h)
      · have h' : (m:ℝ) ≤ 0 := by exact_mod_cast h
        nlinarith [mul_nonneg hm' hs0]
      · have h' : (m:ℝ)^2 ≤ (mult:ℝ)^2 * (v:ℝ) := by exact_mod_cast h
        by_contra hcon
        push_neg at hcon
        nlinarith [mul_nonneg hm' hs0]
    · intro h
      by_cases hm0 : m ≤ 0
      · exact Or.inl hm0
      · right
        have hm0' : (0:ℝ) < (m:ℝ) := by exact_mod_cast not_le.mp hm0
        have hsq : (m:ℝ)^2 ≤ (mult:ℝ)^2 * (v:ℝ) := by nlinarith [mul_nonneg hm' hs0]
        exact_mod_cast hsq
  · have hm' : (mult:ℝ) < 0 := by exact_mod_cast not_le.mp hm
    have hms : (mult:ℝ) * s ≤ 0 := mul_nonpos_of_nonpos_of_nonneg (le_of_lt hm') hs0
    rw [if_neg hm, decide_eq_true_iff]
    constructor
    · rintro ⟨h1, h2⟩
      have h1' : (m:ℝ) ≤ 0 := by exact_mod_cast h1
      have h2' : (mult:ℝ)^2 * (v:ℝ) ≤ (m:ℝ)^2 := by exact_mod_cast h2
      by_contra hcon
      push_neg at hcon
      nlinarith
    · intro h
      have h1' : (m:ℝ) ≤ 0 := le_trans (by linarith) hms
      refine ⟨by exact_mod_cast h1', ?_⟩
      have hsq : (mult:ℝ)^2 * (v:ℝ) ≤ (m:ℝ)^2 := by nlinarith
      exact_mod_cast hsq

lemma ltAVSL_iff (c m v mult : ℚ) (hv : 0 ≤ v) :
    ltAVSL c m v mult = true ↔
      (c : ℝ) < (m : ℝ) - (mult : ℝ) * Real.sqrt (v : ℝ) := by
  have hv' : (0:ℝ) ≤ (v:ℝ) := by exact_mod_cast hv
  have hs0 : 0 ≤ Real.sqrt (v:ℝ) := Real.sqrt_nonneg _
  have hs2 : Real.sqrt (v:ℝ) ^ 2 = (v:ℝ) := Real.sq_sqrt hv'
  set s := Real.sqrt (v:ℝ) with hsdef
  unfold ltAVSL
  by_cases hm : (0:ℚ) ≤ mult
  · have hm' : (0:ℝ) ≤ (mult:ℝ) := by exact_mod_cast hm
    have hms : (0:ℝ) ≤ (mult:ℝ) * s := mul_nonneg hm' hs0
    rw [if_pos hm, decide_eq_true_iff]
    constructor
    · rintro ⟨h1, h2⟩
      have h1' : (0:ℝ) < (m:ℝ) - c := by exact_mod_cast h1
      have h2' : (mult:ℝ)^2 * (v:ℝ) < ((m:ℝ) - c)^2 := by exact_mod_cast h2
      by_contra hcon
      push_neg at hcon
      nlinarith
    · intro h
      have h1' : (0:ℝ) < (m:ℝ) - c := by nlinarith
      refine ⟨by exact_mod_cast h1', ?_⟩
      have hsq : (mult:ℝ)^2 * (v:ℝ) < ((m:ℝ) - c)^2 := by nlinarith
      exact_mod_cast hsq
  · have hm' : (mult:ℝ) < 0 := by exact_mod_cast not_le.mp hm
    have hms : (mult:ℝ) * s ≤ 0 := mul_nonpos_of_nonpos_of_nonneg (le_of_lt hm') hs0
    rw [if_neg hm, decide_eq_true_iff]
    constructor
    · rintro (h | h)
      · have h' : (0:ℝ) < (m:ℝ) - c := by exact_mod_cast h
        nlinarith
      · have h' : ((m:ℝ) - c)^2 < (mult:ℝ)^2 * (v:ℝ) := by exact_mod_cast h
        by_contra hcon
        push_neg at hcon
        nlinarith
    · intro h
      by_cases hd : (0:ℚ) < m - c
      · exact Or.inl hd
      · right
        have hd' : (m:ℝ) - c ≤ 0 := by exact_mod_cast not_lt.mp hd
        have hsq : ((m:ℝ) - c)^2 < (mult:ℝ)^2 * (v:ℝ) := by nlinarith
        exact_mod_cast hsq

/-! ## The Buff AVSL series is never computable when any window exceeds one -/

lemma nBin_none_left (f : ℚ → ℚ → ℚ) (b : NQ) : nBin f none b = none := by
  cases b <;> rfl

lemma nBin_none_right (f : ℚ → ℚ → ℚ) (a : NQ) : nBin f a none = none := by
  cases a <;> rfl

lemma nDiv_none_right (a : NQ) : nDiv a none = none := by
  cases a <;> rfl

lemma rollingMeanN_length (w : ℕ) (xs : List NQ) :
    (rollingMeanN w xs).length = xs.length := by
  simp [rollingMeanN]

lemma rollingMeanN_ne_nil (w : ℕ) (xs : List NQ) (hxs : xs ≠ []) :
    rollingMeanN w xs ≠ [] := by
  intro hcontra
  apply hxs
  have := rollingMeanN_length w xs
  rw [hcontra] at this
  exact List.length_eq_zero.mp this.symm

lemma rollingMeanN_head_none (w : ℕ) (xs : List NQ) (hxs : xs ≠ [])
    (h : 2 ≤ w ∨ xs.getD 0 none = none) :
    (rollingMeanN w xs).getD 0 none = none := by
  obtain ⟨x, t, rfl⟩ := List.exists_cons_of_ne_nil hxs
  have hlen : 0 < (x :: t).length := by simp
  rw [rollingMeanN, List.getD_eq_getElem?_getD, List.getElem?_map,
    List.getElem?_range hlen]
  rcases h with h | h
  · have : (0 : ℕ) + 1 < w := by omega
    simp [this]
  · have hx : x = none := h
    subst hx
    match w with
    | 0 => simp
    | 1 => simp [seqOption]
    | (n + 2) => simp

lemma zipWith_getD_head {α β γ : Type} (f : α → β → γ) (a : List α) (b : List β)
    (da : α) (db : β) (dc : γ) (ha : a ≠ []) (hb : b ≠ []) :
    (List.zipWith f a b).getD 0 dc = f (a.getD 0 da) (b.getD 0 db) := by
  obtain ⟨x, ta, rfl⟩ := List.exists_cons_of_ne_nil ha
  obtain ⟨y, tb, rfl⟩ := List.exists_cons_of_ne_nil hb
  rfl

lemma map_getD_head {α β : Type} (f : α → β) (l : List α) (da : α) (db : β)
    (hl : l ≠ []) : (l.map f).getD 0 db = f (l.getD 0 da) := by
  obtain ⟨x, t, rfl⟩ := List.exists_cons_of_ne_nil hl
  rfl

lemma seqOption_head_none {α : Type} (l : List (Option α)) (hl : l ≠ [])
    (h0 : l.getD 0 none = none) : seqOption l = none := by
  obtain ⟨x, t, rfl⟩ := List.exists_cons_of_ne_nil hl
  have hx : x = none := h0
  subst hx
  rfl

lemma vpciOf_head_none (cfg : AvslCfg) (d : SymbolData)
    (hslow : 2 ≤ cfg.slowPeriod) (hne : vpciOf cfg d ≠ []) :
    (vpciOf cfg d).getD 0 none = none := by
  have hsplit : (List.zipWith (nBin fun a b => a * b) ((vpcOf cfg d).map nAbs)
      (vprOf cfg d)) ≠ [] ∧ vmOf cfg d ≠ [] := by
    rw [vpciOf, Ne, List.zipWith_eq_nil_iff] at hne
    push_neg at hne
    exact hne
  have hsplit2 : (vpcOf cfg d).map nAbs ≠ [] ∧ vprOf cfg d ≠ [] := by
    have := hsplit.1
    rw [Ne, List.zipWith_eq_nil_iff] at this
    push_neg at this
    exact this
  have hclose_ne : d.close.map some ≠ [] := by
    have := hsplit2.2
    rw [vprOf, Ne, List.zipWith_eq_nil_iff] at this
    push_neg at this
    intro hcontra
    exact (rollingMeanN_ne_nil cfg.slowPeriod (d.close.map some)
      (by intro h; exact this.2 (by rw [h]; simp [rollingMeanN]))) (by rw [hcontra]; simp [rollingMeanN])
  have hfast_ne : rollingMeanN cfg.fastPeriod (d.close.map some) ≠ [] :=
    rollingMeanN_ne_nil _ _ hclose_ne
  have hslow_ne : rollingMeanN cfg.slowPeriod (d.close.map some) ≠ [] :=
    rollingMeanN_ne_nil _ _ hclose_ne
  have hslowma : (rollingMeanN cfg.slowPeriod (d.close.map some)).getD 0 none = none :=
    rollingMeanN_head_none _ _ hclose_ne (Or.inl hslow)
  have hvpr0 : (vprOf cfg d).getD 0 none = none := by
    rw [vprOf, zipWith_getD_head nDiv _ _ none none none hfast_ne hslow_ne,
      hslowma, nDiv_none_right]
  have hx0 : (List.zipWith (nBin fun a b => a * b) ((vpcOf cfg d).map nAbs)
      (vprOf cfg d)).getD 0 none = none := by
    rw [zipWith_getD_head _ _ _ none none none hsplit2.1 hsplit2.2, hvpr0,
      nBin_none_right]
  rw [vpciOf, zipWith_getD_head _ _ _ none none none hsplit.1 hsplit.2, hx0,
    nBin_none_left]

/-- The decisive behavior behind claim C6: whenever the slow VPCI window is at
least 2 (any realistic configuration) and `bars ≥ 1`, the `dynamic_length`
series starts with the warm-up `NaN`, `astype(int)` raises, and
`calculate_avsl_series` returns `None` — for every input series. -/
lemma calculate_avsl_series_none (cfg : AvslCfg) (d : SymbolData)
    (hslow : 2 ≤ cfg.slowPeriod) (hbars : 1 ≤ cfg.bars) :
    calculate_avsl_series cfg d = none := by
  rw [calculate_avsl_series]
  rcases hvp : calculate_vpci_components cfg d with _ | pr
  · rfl
  · obtain ⟨vpc, vpci⟩ := pr
    have hguard : ¬ (d.close.length = 0 ∨ d.close.length < cfg.slowPeriod) := by
      intro hcontra
      rw [calculate_vpci_components, if_pos hcontra] at hvp
      cases hvp
    rw [calculate_vpci_components, if_neg hguard] at hvp
    injection hvp with hvp
    have hvpci : vpci = vpciOf cfg d := (congrArg Prod.snd hvp).symm
    dsimp only
    by_cases hg2 : d.low.length = 0 ∨ vpci.length < cfg.bars
    · rw [if_pos hg2]
    · rw [if_neg hg2]
      push_neg at hg2
      have hvpcine : vpci ≠ [] := by
        intro hcontra
        rw [hcontra] at hg2
        simp at hg2
        omega
      have hhead : vpci.getD 0 none = none := by
        rw [hvpci]
        exact vpciOf_head_none cfg d hslow (hvpci ▸ hvpcine)
      have havg : (rollingMeanN cfg.bars vpci).getD 0 none = none :=
        rollingMeanN_head_none _ _ hvpcine (Or.inr hhead)
      have havgne : rollingMeanN cfg.bars vpci ≠ [] :=
        rollingMeanN_ne_nil _ _ hvpcine
      have hdl0 : (dynamicLengthOf cfg vpci).getD 0 none = none := by
        rw [dynamicLengthOf, map_getD_head _ _ none none havgne, havg]
        rfl
      have hdlne : dynamicLengthOf cfg vpci ≠ [] := by
        rw [dynamicLengthOf, Ne, List.map_eq_nil_iff]
        exact havgne
      rw [seqOption_head_none _ hdlne hdl0]

/-! ## Claim C6: the Buff AVSL signal against its spec -/

/-- Failing input for claim C6, configuration: fast window 1, slow window 2,
`bars` 2, stddev multiplier 0, band length clamped to 2..2. -/
def ceAvslCfg : AvslCfg := ⟨1, 2, 2, 0, 2, 2⟩

/-- Failing input for claim C6, data: three flat bars at 100 and a crash bar
(high 100, low 29, close 30), volume 10 throughout. -/
def ceAvslData : SymbolData :=
  ⟨[100, 100, 100, 100], [100, 100, 100, 29], [100, 100, 100, 30],
    [10, 10, 10, 10]⟩

lemma ce_cfg_fast : ceAvslCfg.fastPeriod = 1 := rfl
lemma ce_cfg_slow : ceAvslCfg.slowPeriod = 2 := rfl
lemma ce_cfg_bars : ceAvslCfg.bars = 2 := rfl
lemma ce_cfg_mult : ceAvslCfg.stddevMult = 0 := rfl
lemma ce_cfg_minl : ceAvslCfg.minLength = 2 := rfl
lemma ce_cfg_maxl : ceAvslCfg.maxLength = 2 := rfl
lemma ce_data_high : ceAvslData.high = [100, 100, 100, 100] := rfl
lemma ce_data_low : ceAvslData.low = [100, 100, 100, 29] := rfl
lemma ce_data_close : ceAvslData.close = [100, 100, 100, 30] := rfl
lemma ce_data_volume : ceAvslData.volume = [10, 10, 10, 10] := rfl

lemma ce_spec_vpc : specVpcList ceAvslCfg ceAvslData =
    [none, some 0, some 0, some (-(31/20))] := by
  have hr : List.range 4 = [0, 1, 2, 3] := rfl
  norm_num [specVpcList, ce_cfg_slow, ce_data_high, ce_data_low, ce_data_close,
    ce_data_volume, tpTimesVolOf, rollingSumN, seqOption, nDiv, nBin, hr,
    List.zipWith]

set_option maxHeartbeats 2000000 in
lemma ce_spec_vpci : specVpciList ceAvslCfg ceAvslData =
    [none, some 0, some 0, some (93/130)] := by
  have hr : List.range 4 = [0, 1, 2, 3] := rfl
  have habs : |(31/20 : ℚ)| = 31/20 := abs_of_nonneg (by norm_num)
  simp only [specVpciList, ce_spec_vpc, ce_cfg_fast, ce_cfg_slow,
    ce_data_close, ce_data_volume]
  norm_num [rollingMeanN, seqOption, nDivGuard, nBin, nAbs, hr, List.zipWith,
    habs]

lemma ce_spec_avg : rollingMeanN 2 [none, some 0, some 0, some (93/130)] =
    [none, none, some 0, some (93/260)] := by
  have hr : List.range 4 = [0, 1, 2, 3] := rfl
  norm_num [rollingMeanN, seqOption, hr]

lemma ce_spec_dynlen : specDynamicLength ceAvslCfg ceAvslData = some 2 := by
  have hfloor : ⌊(930/260 : ℚ)⌋ = 3 := by
    rw [Int.floor_eq_iff]
    norm_num
  simp only [specDynamicLength, ce_cfg_slow, ce_spec_vpci, ce_spec_avg,
    ce_cfg_minl, ce_cfg_maxl]
  norm_num [List.getLast?, roundHalfEvenZ, clipQ, hfloor]

lemma ce_spec_latest : specAVSLlatest ceAvslCfg ceAvslData =
    some (24901/400, 227979801/80000) := by
  have hr : List.range 4 = [0, 1, 2, 3] := rfl
  have htn : (2 : ℤ).toNat = 2 := rfl
  norm_num [specAVSLlatest, ce_spec_dynlen, ce_spec_vpc, ce_data_low,
    rollingMeanN, rollingVarN, seqOption, nBin, hr, lastSome, List.zipWith, htn]

lemma ce_spec_signal : specAvslSignal ceAvslCfg ceAvslData = true := by
  norm_num [specAvslSignal, ce_spec_latest, ce_cfg_mult, ce_data_close,
    avslNonPositive, ltAVSL, decide_eq_true_eq]

/-- The Buff-mode sell signal is identically `false` whenever the slow VPCI
window is at least 2 and `bars ≥ 1` — the band described by the docstring and
the spec can never fire. -/
lemma check_avsl_sell_signal_buff_false (cfg : AvslCfg) (d : SymbolData)
    (hslow : 2 ≤ cfg.slowPeriod) (hbars : 1 ≤ cfg.bars) :
    check_avsl_sell_signal_buff cfg d = false := by
  simp only [check_avsl_sell_signal_buff, get_latest_avsl,
    calculate_avsl_series_none cfg d hslow hbars]

/-- C6: at the concrete failing input (three flat bars at 100, then a crash
bar closing at 30; fast window 1, slow window 2, bars 2, stddev multiplier 0,
band length clamped to 2) the spec's Buff-Dormeier AVSL signal is `true` —
the latest AVSL value is `24901/400 − 0·σ = 62.2525`, strictly above the
latest close 30 — while the code's `check_avsl_sell_signal` returns `false`:
its `dynamic_length.astype(int)` conversion hits the warm-up `NaN` of the
rolling VPCI mean, pandas raises `IntCastingNaNError`, the broad `except`
returns `None`, and the signal falls back to `false`.  (By
`calculate_avsl_series_none` this happens for every input whenever any VPCI
window is at least 2, so the code's Buff signal can never be `true` in a
realistic configuration.) -/
theorem avsl_signal_code_bug :
    check_avsl_sell_signal_buff ceAvslCfg ceAvslData = false ∧
    specAvslSignal ceAvslCfg ceAvslData = true ∧
    specAVSLlatest ceAvslCfg ceAvslData = some (24901/400, 227979801/80000) ∧
    ceAvslCfg.stddevMult = 0 ∧
    ceAvslData.close.getLast? = some 30 ∧
    (30 : ℚ) < 24901/400 := by
  refine ⟨?_, ce_spec_signal, ce_spec_latest, rfl, rfl, by norm_num⟩
  exact check_avsl_sell_signal_buff_false ceAvslCfg ceAvslData
    (by rw [ce_cfg_slow]) (by rw [ce_cfg_bars]; norm_num)

end StockFinder
